import Mathlib

/-!
Shallow embedding of the `internet-folks-restAPI` service (TypeScript,
Express, Prisma over SQLite) and proofs about its membership, authorization,
pagination, slug and token logic.

Modelling conventions, used throughout:

* Database rows (Prisma models `User`, `Community`, `Role`, `Member`) become
  structures over `String` ids; timestamps are seconds since the epoch as
  `Nat`.  The database is the quadruple of row lists in insertion order;
  `findUnique`/`findFirst` become `List.find?`, `create` appends, `delete`
  filters.
* JSON Web Tokens are modelled symbolically: a token records the signed
  payload, the signing key and the issuance time.  `jwt.sign` packages them;
  `jwt.verify` succeeds exactly when the verification key equals the signing
  key and the token is within its one-hour lifetime, returning the payload.
  The payload is a record with the two optional fields (`id`, `userId`) the
  repository ever signs or reads.
* `process.env.JWT_SECRET` and the request time are explicit parameters
  (`secret`, `now`); the fresh ids produced by `Snowflake.generate()` are
  explicit `freshId` parameters.
* `bcrypt` is an external collaborator: `bcrypt.compareSync` is an opaque
  function parameter `compare` of the sign-in handler.
* The `Authorization: Bearer` header is an `Option Token`; a missing or
  malformed header is `none` (in the source, `jwt.verify` then throws and
  the helper returns `null`).
* Handlers are embedded after the zod body parse succeeds (a parse failure
  returns the separate 400 validation response and touches no state); the
  one body check a claim depends on, `z.string().min(2)` for the community
  name, is kept explicitly.
-/

/-- A `User` row: `{id, name?, email, password, created_at}`. -/
structure User where
  id : String
  name : Option String
  email : String
  password : String
  created_at : Nat
deriving DecidableEq, Repr

/-- A `Community` row: `{id, name, slug, owner, created_at, updated_at}`. -/
structure Community where
  id : String
  name : String
  slug : String
  owner : String
  created_at : Nat
  updated_at : Nat
deriving DecidableEq, Repr

/-- A `Role` row: `{id, name, created_at, updated_at}`. -/
structure Role where
  id : String
  name : String
  created_at : Nat
  updated_at : Nat
deriving DecidableEq, Repr

/-- A `Member` row: `{id, community, user, role, created_at}`. -/
structure Member where
  id : String
  community : String
  user : String
  role : String
  created_at : Nat
deriving DecidableEq, Repr

/-- The database: the four Prisma tables, each in insertion order. -/
structure DB where
  user : List User
  community : List Community
  role : List Role
  member : List Member
deriving DecidableEq, Repr

/-- The payload a token of this repository can carry: sign-up signs
`{ userId }`, sign-in signs `{ id }`; verification reads `id`. -/
structure TokenPayload where
  id : Option String
  userId : Option String
deriving DecidableEq, Repr

/-- A signed token: payload, signing key and issuance time. -/
structure Token where
  payload : TokenPayload
  key : String
  iat : Nat
deriving DecidableEq, Repr

/-- `jwt.sign(payload, key, { expiresIn: "1h" })` at time `iat`. -/
def jwtSign (payload : TokenPayload) (key : String) (iat : Nat) : Token :=
  ⟨payload, key, iat⟩

/-- `jwt.verify(token, key)` evaluated at time `now`: the payload when the
verification key matches the signing key and the one-hour lifetime has not
elapsed (jsonwebtoken rejects once `now` reaches `iat + 3600`), otherwise
failure (the library throws; callers catch and return `null`). -/
def jwtVerify (tok : Token) (key : String) (now : Nat) : Option TokenPayload :=
  if tok.key == key && now < tok.iat + 3600 then some tok.payload else none

/-- `getUserIdFromAccessToken` (User.ts, Member.ts, Community.ts): verifies
the token against `process.env.JWT_SECRET` and returns `decodedToken.id`. -/
def getUserIdFromAccessToken (tok : Token) (secret : String) (now : Nat) :
    Option String :=
  match jwtVerify tok secret now with
  | some payload => payload.id
  | none => none

/-- `generateAccessToken` (User.ts sign-up, env-secret variant): signs the
payload `{ userId }` with `process.env.JWT_SECRET`, one hour lifetime. -/
def generateAccessToken (secret userId : String) (iat : Nat) : Token :=
  jwtSign ⟨none, some userId⟩ secret iat

/-- `generateAccessToken` (User.ts sign-up, hardcoded-key variant): signs the
payload `{ userId }` with the literal key `'1x234'`. -/
def generateAccessTokenHardcoded (userId : String) (iat : Nat) : Token :=
  jwtSign ⟨none, some userId⟩ "1x234" iat

/-- The inline `jwt.sign({ id: user.id }, process.env.JWT_SECRET, ...)` of
the sign-in handler. -/
def signinAccessToken (secret id : String) (iat : Nat) : Token :=
  jwtSign ⟨some id, none⟩ secret iat

/-- `req.headers.authorization?.split(" ")[1] || ""` followed by
`getUserIdFromAccessToken`: a missing header yields `null`. -/
def tokenUserId (tok : Option Token) (secret : String) (now : Nat) :
    Option String :=
  match tok with
  | none => none
  | some t => getUserIdFromAccessToken t secret now

/-- One entry of the `errors` array of a failure response. -/
structure ErrEntry where
  param : Option String
  message : String
  code : String
deriving DecidableEq, Repr

/-- The 403 error entry shared by the member routes. -/
def notAllowedError : ErrEntry :=
  ⟨none, "You are not authorized to perform this action.", "NOT_ALLOWED_ACCESS"⟩

/-- The 400 error entry for a duplicate membership. -/
def alreadyMemberError : ErrEntry :=
  ⟨none, "User is already added in the community.", "RESOURCE_EXISTS"⟩

/-- `checkIfUserIsCommunityAdmin(userId, communityId)` (Member.ts): false for
a null user id; otherwise true iff the community exists and its `owner`
field equals the user id. -/
def checkIfUserIsCommunityAdmin (db : DB) (userId : Option String)
    (communityId : String) : Bool :=
  match userId with
  | none => false
  | some uid =>
    match db.community.find? (fun c => c.id == communityId) with
    | some community => community.owner == uid
    | none => false

/-- `checkIfUserIsCommunityAdminOrModerator(accessToken)` (Member.ts), as the
value its promise eventually resolves to: true iff the bearer resolves to an
existing user one of whose memberships, in any community, carries a role
named exactly "Community Admin" or "Community Moderator". -/
def checkIfUserIsCommunityAdminOrModerator (db : DB) (secret : String)
    (now : Nat) (tok : Option Token) : Bool :=
  match tokenUserId tok secret now with
  | none => false
  | some uid =>
    match db.user.find? (fun u => u.id == uid) with
    | none => false
    | some u =>
      (db.member.filter (fun m => m.user == u.id)).any (fun m =>
        match db.role.find? (fun r => r.id == m.role) with
        | some r => r.name == "Community Admin" || r.name == "Community Moderator"
        | none => false)

/-- Result of `POST /member`: an error response or 200 with the new row. -/
inductive AddMemberResult where
  | err (status : Nat) (errors : List ErrEntry)
  | ok (m : Member)
deriving DecidableEq, Repr

/-- `POST /v1/member` (Member.ts `router.post("/")`), after the zod parse of
`{community, user, role}` (all plain strings, so a well-typed request always
parses).  Order as in the source: owner gate, community lookup, role lookup,
user lookup, duplicate-membership lookup, then the single insert.  `freshId`
is the `Snowflake.generate()` value, `now` the request time (also the
`created_at` default of the inserted row). -/
def addMember (db : DB) (secret : String) (now : Nat) (tok : Option Token)
    (community user role freshId : String) : AddMemberResult × DB :=
  let userId := tokenUserId tok secret now
  let isAdmin := checkIfUserIsCommunityAdmin db userId community
  if !isAdmin then
    (.err 403 [notAllowedError], db)
  else
    match db.community.find? (fun c => c.id == community) with
    | none =>
      (.err 404 [⟨some "community", "Community not found.", "RESOURCE_NOT_FOUND"⟩], db)
    | some _ =>
      match db.role.find? (fun r => r.id == role) with
      | none =>
        (.err 404 [⟨some "role", "Role not found.", "RESOURCE_NOT_FOUND"⟩], db)
      | some _ =>
        match db.user.find? (fun u => u.id == user) with
        | none =>
          (.err 404 [⟨some "user", "User not found.", "RESOURCE_NOT_FOUND"⟩], db)
        | some _ =>
          match db.member.find? (fun m => m.community == community && m.user == user) with
          | some _ => (.err 400 [alreadyMemberError], db)
          | none =>
            let newMember : Member := ⟨freshId, community, user, role, now⟩
            (.ok newMember, { db with member := db.member ++ [newMember] })

/-- Result of `DELETE /member/:id`: an error response or a bare 200. -/
inductive DeleteMemberResult where
  | err (status : Nat) (errors : List ErrEntry)
  | ok
deriving DecidableEq, Repr

/-- The guard value of the delete handler.  The source assigns
`checkIfUserIsCommunityAdminOrModerator(accessToken)` without `await`, so
the variable holds a Promise object, and a Promise object is truthy in
JavaScript whatever Bool it later resolves to. -/
def promiseObjectIsTruthy : Bool := true

/-- `DELETE /v1/member/:id` (Member.ts `router.delete("/:id")`): membership
lookup, then the (unawaited) admin-or-moderator gate, then the delete. -/
def deleteMember (db : DB) (secret : String) (now : Nat) (tok : Option Token)
    (memberId : String) : DeleteMemberResult × DB :=
  match db.member.find? (fun m => m.id == memberId) with
  | none =>
    (.err 404 [⟨none, "Member not found.", "RESOURCE_NOT_FOUND"⟩], db)
  | some _ =>
    if !promiseObjectIsTruthy then
      (.err 403 [notAllowedError], db)
    else
      (.ok, { db with member := db.member.filter (fun m => !(m.id == memberId)) })

/-- The JavaScript regular-expression character class `\s` (whitespace):
tab through carriage return, space, and the Unicode space separators. -/
def jsIsSpace (c : Char) : Bool :=
  let n := c.toNat
  (0x09 ≤ n && n ≤ 0x0d) || n == 0x20 || n == 0xa0 || n == 0x1680 ||
  (0x2000 ≤ n && n ≤ 0x200a) || n == 0x2028 || n == 0x2029 ||
  n == 0x202f || n == 0x205f || n == 0x3000 || n == 0xfeff

/-- `String.prototype.replace(/\s+/g, "-")` on a character list: the global
regex substitutes each maximal whitespace run by one hyphen.  The Bool
argument records whether the scan is currently inside such a run. -/
def collapseAux : Bool → List Char → List Char
  | _, [] => []
  | prevWs, c :: rest =>
    if jsIsSpace c then
      if prevWs then collapseAux true rest else '-' :: collapseAux true rest
    else c :: collapseAux false rest

/-- `name.replace(/\s+/g, "-")` on a character list. -/
def collapseWs (l : List Char) : List Char :=
  collapseAux false l

/-- `generateSlug(name)` (Community.ts): `name.toLowerCase().replace(/\s+/g, "-")`.
Lower-casing is modelled per character by `Char.toLower`. -/
def generateSlug (name : String) : String :=
  ⟨collapseWs (name.data.map Char.toLower)⟩

/-- The segments of a character list delimited by its maximal whitespace
runs, in order, including the empty segments at either end when the list
starts or ends with whitespace.  `some seg` holds the (reversed) segment
being scanned; `none` means the scan is inside a whitespace run. -/
def splitRunsAux : Option (List Char) → List Char → List (List Char)
  | some seg, [] => [seg.reverse]
  | none, [] => [[]]
  | some seg, c :: rest =>
    if jsIsSpace c then seg.reverse :: splitRunsAux none rest
    else splitRunsAux (some (c :: seg)) rest
  | none, c :: rest =>
    if jsIsSpace c then splitRunsAux none rest
    else splitRunsAux (some [c]) rest

/-- The segments of a character list delimited by its maximal whitespace
runs. -/
def splitRuns (l : List Char) : List (List Char) :=
  splitRunsAux (some []) l

/-- Joining segments with a single hyphen between adjacent segments. -/
def joinHyphen : List (List Char) → List Char
  | [] => []
  | [seg] => seg
  | seg :: rest => seg ++ '-' :: joinHyphen rest

/-- The specification's description of the slug, taken by its words:
lowercase the name, then replace every maximal run of whitespace by a
single hyphen (split at the maximal whitespace runs and rejoin the
segments with single hyphens). -/
def specSlug (name : String) : String :=
  ⟨joinHyphen (splitRuns (name.data.map Char.toLower))⟩

/-- Result of `POST /community`: an error response or 201 with the row. -/
inductive CreateCommunityResult where
  | err (status : Nat) (errors : List ErrEntry)
  | ok (c : Community)
deriving DecidableEq, Repr

/-- `POST /v1/community` (Community.ts `router.post("/")`): zod `min(2)` name
check, slug derivation, bearer gate, then the insert.  The unique index on
`slug` makes Prisma reject a colliding insert; the handler's catch turns
that into the generic 500. -/
def createCommunity (db : DB) (secret : String) (now : Nat)
    (tok : Option Token) (freshId name : String) : CreateCommunityResult × DB :=
  if name.length < 2 then
    (.err 400 [⟨some "name", "String must contain at least 2 character(s)", "INVALID_INPUT"⟩], db)
  else
    let slug := generateSlug name
    match tokenUserId tok secret now with
    | none =>
      (.err 401 [⟨none, "You need to sign in to proceed.", "NOT_SIGNEDIN"⟩], db)
    | some ownerId =>
      if db.community.any (fun c => c.slug == slug) then
        (.err 500 [⟨none, "Internal Server Error", "INTERNAL_SERVER_ERROR"⟩], db)
      else
        let c : Community := ⟨freshId, name, slug, ownerId, now, now⟩
        (.ok c, { db with community := db.community ++ [c] })

/-- The effective page number: `parseInt(req.query.page) || 1` (community
routes) and `Number(req.query.page) || 1` (role route).  `none` stands for
an absent or non-numeric parameter (`NaN`); both `NaN` and `0` are falsy,
so they fall back to `1`, while every other integer is used as given. -/
def effectivePage : Option Int → Int
  | none => 1
  | some p => if p == 0 then 1 else p

/-- The pagination metadata both list handlers compute: `total`, `pages =
Math.ceil(total / 10)`, and the effective page. -/
structure Meta where
  total : Nat
  pages : Nat
  page : Int
deriving DecidableEq, Repr

/-- The community list's metadata computation (Community.ts `router.get("/")`):
`totalCount` and `Math.ceil(totalCount / perPage)` with `perPage = 10`. -/
def paginateMeta (l : List α) (page : Int) : Meta :=
  ⟨l.length, (l.length + 9) / 10, page⟩

/-- The community list's pagination window (Community.ts `router.get("/")`):
`skip = (page - 1) * perPage`, `take = perPage` with `perPage = 10`, over a
table read in stable insertion order. -/
def skipTakePage (l : List α) (page : Int) : List α :=
  (l.drop (((page - 1) * 10).toNat)).take 10

/-- `Array.prototype.slice(start, end)`: negative indices count from the end
of the array, and both indices are clamped to the array bounds. -/
def jsSlice (l : List α) (start stop : Int) : List α :=
  let len : Int := l.length
  let s := if start < 0 then max (len + start) 0 else min start len
  let e := if stop < 0 then max (len + stop) 0 else min stop len
  (l.drop s.toNat).take (e - s).toNat

/-- `GET /v1/role` (Role.ts `router.get('/role')`): fetch all roles, compute
`total`, `pages`, the effective page, and slice
`[(page-1)*10, page*10)` out of the full list.  This handler always
answers 200. -/
def roleList (db : DB) (pageQ : Option Int) : Meta × List Role :=
  let total := db.role.length
  let pages := (total + 9) / 10
  let page := effectivePage pageQ
  let startIndex := (page - 1) * 10
  let endIndex := page * 10
  (⟨total, pages, page⟩, jsSlice db.role startIndex endIndex)

/-- The `{id, name}` projection of a related user or role row. -/
structure NameRef where
  id : String
  name : Option String
deriving DecidableEq, Repr

/-- One item of the community list: the handler's `select`, with the owner
resolved to `{id, name}` through the `ownerId` relation. -/
structure CommunityItem where
  id : String
  name : String
  slug : String
  owner : Option NameRef
  created_at : Nat
  updated_at : Nat
deriving DecidableEq, Repr

/-- One item of the member list: `user` resolved to `{id, name}` via the
`user_fk` relation, `role` resolved to `{id, name}` via the batch-loaded
roles of the page. -/
structure MemberItem where
  id : String
  community : String
  user : Option NameRef
  role : Option NameRef
  created_at : Nat
deriving DecidableEq, Repr

/-- Result of a paginated list endpoint that can fail: 200 with metadata and
items, or the generic 500. -/
inductive PagedResult (α : Type) where
  | err500
  | ok (meta : Meta) (data : List α)
deriving DecidableEq, Repr

/-- `GET /v1/community` (Community.ts `router.get("/")`).  A negative page
produces a negative `skip`; Prisma rejects a negative `skip`, and the
handler's catch returns the generic 500. -/
def listCommunities (db : DB) (pageQ : Option Int) : PagedResult CommunityItem :=
  let page := effectivePage pageQ
  let skip := (page - 1) * 10
  if skip < 0 then .err500
  else
    .ok (paginateMeta db.community page)
      ((skipTakePage db.community page).map (fun c =>
        ⟨c.id, c.name, c.slug,
         (db.user.find? (fun u => u.id == c.owner)).map (fun u => ⟨u.id, u.name⟩),
         c.created_at, c.updated_at⟩))

/-- `GET /v1/community/:id/members` (Community.ts `router.get("/:id/members")`):
count and window the memberships of the community, batch-load the distinct
role ids of the page, and join users and roles in memory.  As with the
community list, a negative page means a negative `skip` and the 500 path. -/
def listMembers (db : DB) (communityId : String) (pageQ : Option Int) :
    PagedResult MemberItem :=
  let page := effectivePage pageQ
  let skip := (page - 1) * 10
  if skip < 0 then .err500
  else
    let communityMembers := db.member.filter (fun m => m.community == communityId)
    let pageMembers := skipTakePage communityMembers page
    let roleIds := (pageMembers.map (fun m => m.role)).dedup
    let roles := db.role.filter (fun r => roleIds.contains r.id)
    .ok (paginateMeta communityMembers page)
      (pageMembers.map (fun m =>
        ⟨m.id, m.community,
         (db.user.find? (fun x => x.id == m.user)).map (fun x => ⟨x.id, x.name⟩),
         (roles.find? (fun x => x.id == m.role)).map (fun x => ⟨x.id, some x.name⟩),
         m.created_at⟩))

/-- The user object shaped into the 200 sign-in response:
`const { password, ...userData } = user` keeps exactly the remaining
fields `id`, `name`, `email`, `created_at`. -/
structure UserData where
  id : String
  name : Option String
  email : String
  created_at : Nat
deriving DecidableEq, Repr

/-- The rest-spread `const { password, ...userData } = user`. -/
def stripPassword (u : User) : UserData :=
  ⟨u.id, u.name, u.email, u.created_at⟩

/-- Result of `POST /auth/signin`: an error response or 200 with the shaped
user and the access token. -/
inductive SigninResult where
  | err (status : Nat) (errors : List ErrEntry)
  | ok (data : UserData) (accessToken : Token)
deriving DecidableEq, Repr

/-- The single 401 entry of the sign-in credential check. -/
def invalidCredentialsError : ErrEntry :=
  ⟨some "password", "The credentials you provided are invalid.", "INVALID_CREDENTIALS"⟩

/-- `POST /v1/auth/signin` (User.ts `router.post("/signin")`), after the zod
parse: look the user up by email, and answer the one fixed 401 entry when
the user is absent or `bcrypt.compareSync` rejects the password
(`if (!user || !bcrypt.compareSync(...))` — one branch, one literal);
otherwise sign `{ id: user.id }` and answer 200 with the password field
stripped from the user object. -/
def signin (db : DB) (compare : String → String → Bool) (secret : String)
    (now : Nat) (email password : String) : SigninResult :=
  match db.user.find? (fun u => u.email == email) with
  | none => .err 401 [invalidCredentialsError]
  | some user =>
    if !(compare password user.password) then .err 401 [invalidCredentialsError]
    else .ok (stripPassword user) (jwtSign ⟨some user.id, none⟩ secret now)

/-- The Membership Store invariant: at most one membership per
(community, user) pair. -/
def memberInvariant (db : DB) : Prop :=
  db.member.Pairwise (fun a b => ¬(a.community = b.community ∧ a.user = b.user))

/-- A concrete `bcrypt.compareSync` stand-in for witnesses: a password
matches the hash equal to it. -/
def hashEq (password hash : String) : Bool :=
  password == hash

/-- Concrete user: Alice, `u1`, owner of the sample community. -/
def userAlice : User := ⟨"u1", some "Alice", "alice@example.com", "hash1", 0⟩

/-- Concrete user: Bob, `u2`, an ordinary member. -/
def userBob : User := ⟨"u2", some "Bob", "bob@example.com", "hash2", 0⟩

/-- Concrete role named `Member` (neither admin nor moderator). -/
def roleMember : Role := ⟨"r1", "Member", 0, 0⟩

/-- Concrete community `c1`, owned by Alice. -/
def commClub : Community := ⟨"c1", "Club", "club", "u1", 0, 0⟩

/-- Concrete membership `m1`: Bob belongs to `c1` with the `Member` role. -/
def memBob : Member := ⟨"m1", "c1", "u2", "r1", 0⟩

/-- A concrete database state: Alice owns `c1`, Bob is its only member, and
the only role is the plain `Member` role. -/
def dbBase : DB := ⟨[userAlice, userBob], [commClub], [roleMember], [memBob]⟩

/-- A bearer token for Alice, signed with the secret `"s"` at time `0`
(payload `{ id: "u1" }`, sign-in shaped). -/
def tokAlice : Token := jwtSign ⟨some "u1", none⟩ "s" 0

/-- A bearer token for Bob, signed with the secret `"s"` at time `0`. -/
def tokBob : Token := jwtSign ⟨some "u2", none⟩ "s" 0

/-- The community the slug example creates: name `"Open  Source Hub"`. -/
def commOpen : Community := ⟨"c2", "Open  Source Hub", "open-source-hub", "u1", 0, 0⟩

/-- `dbBase` after the slug example's community is inserted. -/
def dbWithOpen : DB := { dbBase with community := dbBase.community ++ [commOpen] }

lemma splitRunsAux_ne_nil (l : List Char) : ∀ m, splitRunsAux m l ≠ [] := by
  induction l with
  | nil =>
    intro m
    cases m <;> simp [splitRunsAux]
  | cons c rest ih =>
    intro m
    cases m with
    | some seg =>
      simp only [splitRunsAux]
      split
      · simp
      · exact ih _
    | none =>
      simp only [splitRunsAux]
      split
      · exact ih _
      · exact ih _

lemma joinHyphen_cons (a : List Char) (L : List (List Char)) (h : L ≠ []) :
    joinHyphen (a :: L) = a ++ '-' :: joinHyphen L := by
  cases L with
  | nil => exact absurd rfl h
  | cons b t => rfl

lemma collapse_split (l : List Char) :
    (∀ seg, joinHyphen (splitRunsAux (some seg) l) = seg.reverse ++ collapseAux false l)
    ∧ joinHyphen (splitRunsAux none l) = collapseAux true l := by
  induction l with
  | nil =>
    refine ⟨fun seg => ?_, ?_⟩
    · simp [splitRunsAux, joinHyphen, collapseAux]
    · simp [splitRunsAux, joinHyphen, collapseAux]
  | cons c rest ih =>
    obtain ⟨ih1, ih2⟩ := ih
    refine ⟨fun seg => ?_, ?_⟩
    · by_cases h : jsIsSpace c
      · rw [show splitRunsAux (some seg) (c :: rest) = seg.reverse :: splitRunsAux none rest
            from by simp [splitRunsAux, h]]
        rw [joinHyphen_cons _ _ (splitRunsAux_ne_nil rest none), ih2]
        simp [collapseAux, h]
      · rw [show splitRunsAux (some seg) (c :: rest) = splitRunsAux (some (c :: seg)) rest
            from by simp [splitRunsAux, h]]
        rw [ih1 (c :: seg)]
        simp [collapseAux, h]
    · by_cases h : jsIsSpace c
      · rw [show splitRunsAux none (c :: rest) = splitRunsAux none rest
            from by simp [splitRunsAux, h]]
        rw [ih2]
        simp [collapseAux, h]
      · rw [show splitRunsAux none (c :: rest) = splitRunsAux (some [c]) rest
            from by simp [splitRunsAux, h]]
        rw [ih1 [c]]
        simp [collapseAux, h]

/-- The code's whitespace-collapsing transform equals the specification's
split-at-runs-and-rejoin description. -/
lemma collapseWs_eq_joinHyphen_splitRuns (l : List Char) :
    collapseWs l = joinHyphen (splitRuns l) := by
  have h := (collapse_split l).1 []
  simpa [collapseWs, splitRuns] using h.symm

/-- `generateSlug` computes exactly the slug the specification describes. -/
lemma generateSlug_eq_specSlug (name : String) :
    generateSlug name = specSlug name := by
  unfold generateSlug specSlug
  exact congrArg String.mk (collapseWs_eq_joinHyphen_splitRuns _)

lemma window_take_drop (l : List α) (n : Nat) :
    (l.drop (min n l.length)).take (min (n + 10) l.length - min n l.length)
      = (l.drop n).take 10 := by
  rcases le_or_lt n l.length with h | h
  · rw [min_eq_left h]
    rcases le_or_lt (n + 10) l.length with h2 | h2
    · rw [min_eq_left h2]
      congr 1
      omega
    · rw [min_eq_right (le_of_lt h2)]
      rw [List.take_of_length_le (by simp [List.length_drop]),
        List.take_of_length_le (by simp [List.length_drop]; omega)]
  · rw [min_eq_right (le_of_lt h), List.drop_eq_nil_of_le (le_refl _),
      List.drop_eq_nil_of_le (le_of_lt h)]
    simp

/-- For a page of at least 1, the role route's slice
`[(page-1)*10, page*10)` is the community route's skip/take window. -/
lemma jsSlice_page (l : List α) (p : Int) (hp : 1 ≤ p) :
    jsSlice l ((p - 1) * 10) (p * 10) = skipTakePage l p := by
  simp only [jsSlice, skipTakePage]
  rw [if_neg (by omega : ¬((p - 1) * 10 < (0 : Int))),
    if_neg (by omega : ¬(p * 10 < (0 : Int)))]
  have hs : (min ((p - 1) * 10) ((l.length : Int))).toNat
      = min (((p - 1) * 10).toNat) l.length := by omega
  have he : (min (p * 10) ((l.length : Int)) - min ((p - 1) * 10) ((l.length : Int))).toNat
      = min (((p - 1) * 10).toNat + 10) l.length - min (((p - 1) * 10).toNat) l.length := by
    omega
  rw [hs, he]
  exact window_take_drop l (((p - 1) * 10).toNat)

/-- C1: the claim says a `DELETE /member/:id` whose target exists but whose
bearer holds no "Community Admin"/"Community Moderator" role anywhere gets
403 `NOT_ALLOWED_ACCESS` and no deletion.  The code violates this: the
handler never awaits `checkIfUserIsCommunityAdminOrModerator`, so the guard
tests a truthy Promise object and the 403 branch is dead.  At the concrete
failing input — membership `m1` exists, Bob's only role is `Member`, so the
gate's eventual value is `false` — the handler still answers 200 and the
membership is gone. -/
theorem c1_delete_member_gate_bypassed :
    (dbBase.member.find? (fun m => m.id == "m1")).isSome = true
    ∧ checkIfUserIsCommunityAdminOrModerator dbBase "s" 0 (some tokBob) = false
    ∧ (deleteMember dbBase "s" 0 (some tokBob) "m1").1 = DeleteMemberResult.ok
    ∧ (deleteMember dbBase "s" 0 (some tokBob) "m1").2.member.find?
        (fun m => m.id == "m1") = none := by
  decide

/-- C2: the claim says `verify(issue(userId)) == userId` for every issuing
path.  It holds for the sign-in path, which signs `{ id: user.id }` with the
configured secret; it fails for both sign-up paths: `generateAccessToken`
signs the payload `{ userId }` while `getUserIdFromAccessToken` reads the
payload field `id`, so verification of a fresh sign-up token yields `null`
— and the hardcoded-key sign-up variant additionally signs with the literal
`'1x234'` instead of the configured secret. -/
theorem c2_token_roundtrip_breaks_on_signup :
    (∀ (secret uid : String) (now : Nat),
      getUserIdFromAccessToken (signinAccessToken secret uid now) secret now = some uid)
    ∧ (∀ (secret uid : String) (now : Nat),
      getUserIdFromAccessToken (generateAccessToken secret uid now) secret now = none)
    ∧ getUserIdFromAccessToken (generateAccessTokenHardcoded "u1" 0) "s" 0 = none := by
  refine ⟨?_, ?_, by decide⟩
  · intro secret uid now
    simp only [getUserIdFromAccessToken, signinAccessToken, jwtSign, jwtVerify]
    rw [if_pos (by simp)]
  · intro secret uid now
    simp only [getUserIdFromAccessToken, generateAccessToken, jwtSign, jwtVerify]
    rw [if_pos (by simp)]

/-- C3 counterexample: the claim says a `POST /member` whose community id
does not resolve fails with 404 `RESOURCE_NOT_FOUND` on param `community`.
At a concrete input with a valid owner token but no community `c404`, the
handler instead answers 403 `NOT_ALLOWED_ACCESS`: the owner gate runs first
and `checkIfUserIsCommunityAdmin` is false when the community is absent. -/
theorem c3_missing_community_403_counterexample :
    dbBase.community.find? (fun c => c.id == "c404") = none
    ∧ addMember dbBase "s" 0 (some tokAlice) "c404" "u2" "r1" "f3"
        = (.err 403 [notAllowedError], dbBase) := by
  decide

/-- C3 amended: for every `POST /member` whose community id does not resolve,
the handler returns 403 `NOT_ALLOWED_ACCESS` and the state is unchanged; the
`CommunityNotFound` 404 branch is unreachable because the owner gate fails
first for a missing community. -/
theorem c3_missing_community_yields_403 (db : DB) (secret : String) (now : Nat)
    (tok : Option Token) (community user role freshId : String)
    (h : db.community.find? (fun c => c.id == community) = none) :
    addMember db secret now tok community user role freshId
      = (.err 403 [notAllowedError], db) := by
  have hAdmin : checkIfUserIsCommunityAdmin db (tokenUserId tok secret now) community
      = false := by
    unfold checkIfUserIsCommunityAdmin
    cases tokenUserId tok secret now with
    | none => rfl
    | some uid => rw [h]
  simp only [addMember]
  rw [hAdmin]
  simp

theorem c3_missing_community_yields_403_witness :
    dbBase.community.find? (fun c => c.id == "nope") = none
    ∧ addMember dbBase "s" 0 (some tokAlice) "nope" "u2" "r1" "f9"
        = (.err 403 [notAllowedError], dbBase) :=
  ⟨by decide,
   c3_missing_community_yields_403 dbBase "s" 0 (some tokAlice) "nope" "u2" "r1" "f9"
     (by decide)⟩

/-- C4: on a state satisfying the at-most-one-membership-per-(community,user)
invariant, an add-member call through a valid owner token, with resolving
community, role and user ids, for a pair that already has a membership (the
existing membership's role and the requested role both arbitrary) answers
400 `RESOURCE_EXISTS` and leaves the state unchanged; and whenever the call
changes the state at all, all four pre-checks held beforehand and the change
is exactly the single insert of the new membership row. -/
theorem c4_membership_uniqueness (db : DB) (secret : String) (now : Nat)
    (tok : Option Token) (community user role freshId : String) :
    (∀ uid comm m,
      memberInvariant db →
      tokenUserId tok secret now = some uid →
      db.community.find? (fun c => c.id == community) = some comm →
      comm.owner = uid →
      (db.role.find? (fun r => r.id == role)).isSome = true →
      (db.user.find? (fun u => u.id == user)).isSome = true →
      m ∈ db.member → m.community = community → m.user = user →
      addMember db secret now tok community user role freshId
        = (.err 400 [alreadyMemberError], db))
    ∧ (∀ res db2,
        addMember db secret now tok community user role freshId = (res, db2) →
        db2 ≠ db →
        (db.community.find? (fun c => c.id == community)).isSome = true
        ∧ (db.role.find? (fun r => r.id == role)).isSome = true
        ∧ (db.user.find? (fun u => u.id == user)).isSome = true
        ∧ db.member.find? (fun m => m.community == community && m.user == user) = none
        ∧ res = AddMemberResult.ok ⟨freshId, community, user, role, now⟩
        ∧ db2.member = db.member ++ [⟨freshId, community, user, role, now⟩]) := by
  constructor
  · intro uid comm m _ hTok hComm hOwn hRole hUser hMem hMC hMU
    have hAdmin : checkIfUserIsCommunityAdmin db (tokenUserId tok secret now) community
        = true := by
      unfold checkIfUserIsCommunityAdmin
      rw [hTok, hComm]
      simp [hOwn]
    obtain ⟨rv, hrv⟩ := Option.isSome_iff_exists.mp hRole
    obtain ⟨uv, huv⟩ := Option.isSome_iff_exists.mp hUser
    have hmemSome : db.member.find? (fun x => x.community == community && x.user == user)
        ≠ none := by
      intro hnone
      have := List.find?_eq_none.mp hnone m hMem
      simp [hMC, hMU] at this
    obtain ⟨mv, hmv⟩ := Option.ne_none_iff_exists'.mp hmemSome
    simp [addMember, hAdmin, hComm, hrv, huv, hmv]
  · intro res db2 h hne
    simp only [addMember] at h
    split at h
    · injection h with h1 h2
      exact absurd h2.symm hne
    · split at h
      · injection h with h1 h2
        exact absurd h2.symm hne
      · split at h
        · injection h with h1 h2
          exact absurd h2.symm hne
        · split at h
          · injection h with h1 h2
            exact absurd h2.symm hne
          · split at h
            · injection h with h1 h2
              exact absurd h2.symm hne
            · injection h with h1 h2
              subst h1
              subst h2
              refine ⟨?_, ?_, ?_, ?_, rfl, rfl⟩
              all_goals simp_all

theorem c4_membership_uniqueness_witness :
    memberInvariant dbBase
    ∧ addMember dbBase "s" 0 (some tokAlice) "c1" "u2" "r1" "f1"
        = (.err 400 [alreadyMemberError], dbBase) :=
  ⟨by unfold memberInvariant; decide,
   (c4_membership_uniqueness dbBase "s" 0 (some tokAlice) "c1" "u2" "r1" "f1").1
     "u1" commClub memBob (by unfold memberInvariant; decide) (by decide) (by decide)
     (by decide) (by decide) (by decide) (by decide) (by decide) (by decide)⟩

/-- C5: for a `POST /member` whose bearer resolves to user id `uid`: if the
target community exists and `uid` is not its owner, the handler answers 403
`NOT_ALLOWED_ACCESS` and the state is unchanged; if `uid` is the owner, the
role and user ids resolve and the pair has no membership yet, the handler
inserts the membership and answers 200 with the created row. -/
theorem c5_add_member_authorization (db : DB) (secret : String) (now : Nat)
    (tok : Option Token) (community user role freshId uid : String)
    (hTok : tokenUserId tok secret now = some uid) :
    (∀ comm, db.community.find? (fun c => c.id == community) = some comm →
      comm.owner ≠ uid →
      addMember db secret now tok community user role freshId
        = (.err 403 [notAllowedError], db))
    ∧ (∀ comm, db.community.find? (fun c => c.id == community) = some comm →
      comm.owner = uid →
      (db.role.find? (fun r => r.id == role)).isSome = true →
      (db.user.find? (fun u => u.id == user)).isSome = true →
      db.member.find? (fun m => m.community == community && m.user == user) = none →
      addMember db secret now tok community user role freshId
        = (.ok ⟨freshId, community, user, role, now⟩,
           { db with member := db.member ++ [⟨freshId, community, user, role, now⟩] })) := by
  constructor
  · intro comm hComm hOwn
    have hAdmin : checkIfUserIsCommunityAdmin db (tokenUserId tok secret now) community
        = false := by
      unfold checkIfUserIsCommunityAdmin
      rw [hTok, hComm]
      simp [hOwn]
    simp [addMember, hAdmin]
  · intro comm hComm hOwn hRole hUser hNoMem
    have hAdmin : checkIfUserIsCommunityAdmin db (tokenUserId tok secret now) community
        = true := by
      unfold checkIfUserIsCommunityAdmin
      rw [hTok, hComm]
      simp [hOwn]
    obtain ⟨rv, hrv⟩ := Option.isSome_iff_exists.mp hRole
    obtain ⟨uv, huv⟩ := Option.isSome_iff_exists.mp hUser
    simp [addMember, hAdmin, hComm, hrv, huv, hNoMem]

theorem c5_add_member_authorization_witness :
    addMember dbBase "s" 0 (some tokBob) "c1" "u1" "r1" "f4"
        = (.err 403 [notAllowedError], dbBase)
    ∧ addMember dbBase "s" 0 (some tokAlice) "c1" "u1" "r1" "f5"
        = (.ok ⟨"f5", "c1", "u1", "r1", 0⟩,
           { dbBase with member := dbBase.member ++ [⟨"f5", "c1", "u1", "r1", 0⟩] }) :=
  ⟨(c5_add_member_authorization dbBase "s" 0 (some tokBob) "c1" "u1" "r1" "f4" "u2"
      (by decide)).1 commClub (by decide) (by decide),
   (c5_add_member_authorization dbBase "s" 0 (some tokAlice) "c1" "u1" "r1" "f5" "u1"
      (by decide)).2 commClub (by decide) (by decide) (by decide) (by decide) (by decide)⟩

/-- C6: every community the create handler stores carries the slug the
specification describes — the lowercased name with every maximal whitespace
run replaced by a single hyphen (`specSlug`) — and the created row is in the
resulting state. -/
theorem c6_slug_spec (db : DB) (secret : String) (now : Nat) (tok : Option Token)
    (freshId name : String) (c : Community) (db2 : DB)
    (h : createCommunity db secret now tok freshId name = (.ok c, db2)) :
    c.slug = specSlug c.name ∧ c ∈ db2.community := by
  simp only [createCommunity] at h
  split at h
  · injection h with h1 h2
    exact absurd h1 (by simp)
  · split at h
    · injection h with h1 h2
      exact absurd h1 (by simp)
    · split at h
      · injection h with h1 h2
        exact absurd h1 (by simp)
      · injection h with h1 h2
        injection h1 with hc
        subst hc
        subst h2
        refine ⟨?_, ?_⟩
        · exact generateSlug_eq_specSlug name
        · simp

theorem c6_slug_spec_witness :
    createCommunity dbBase "s" 0 (some tokAlice) "c2" "Open  Source Hub"
      = (.ok commOpen, dbWithOpen)
    ∧ commOpen.slug = specSlug commOpen.name ∧ commOpen ∈ dbWithOpen.community :=
  ⟨by decide,
   c6_slug_spec dbBase "s" 0 (some tokAlice) "c2" "Open  Source Hub" commOpen dbWithOpen
     (by decide)⟩

/-- C7 counterexample: the claim says a negative page behaves as page 1.  On
a store holding one role, `GET /role` with page `-1` slices with negative
indices and reports page `-1` in its metadata, so its response differs from
the page-1 response. -/
theorem c7_negative_page_not_page_one :
    roleList dbBase (some (-1)) ≠ roleList dbBase (some 1) := by
  decide

/-- C7 amended: a request with page parameter 0 (like an absent or
non-numeric one, since both `parseInt(...) || 1` and `Number(...) || 1` treat
`0` and `NaN` alike) returns the same result as page 1 on all three
paginated endpoints; a negative page is not treated as page 1 but used as
given. -/
theorem c7_page_zero_defaults_to_page_one (db : DB) (communityId : String) :
    listCommunities db (some 0) = listCommunities db (some 1)
    ∧ listMembers db communityId (some 0) = listMembers db communityId (some 1)
    ∧ roleList db (some 0) = roleList db (some 1) :=
  ⟨rfl, rfl, rfl⟩

/-- C8: two failing sign-ins — one with an unregistered email, one with a
registered email but a rejected password — receive literally the same
response: the same 401 status and the one fixed `INVALID_CREDENTIALS`
entry, so the response does not reveal which check failed. -/
theorem c8_signin_error_indistinguishable (db : DB)
    (compare : String → String → Bool) (secret : String) (now : Nat)
    (email1 pass1 email2 pass2 : String) (u : User)
    (h1 : db.user.find? (fun x => x.email == email1) = none)
    (h2 : db.user.find? (fun x => x.email == email2) = some u)
    (h3 : compare pass2 u.password = false) :
    signin db compare secret now email1 pass1 = signin db compare secret now email2 pass2
    ∧ signin db compare secret now email1 pass1 = .err 401 [invalidCredentialsError] := by
  simp [signin, h1, h2, h3]

theorem c8_signin_error_indistinguishable_witness :
    dbBase.user.find? (fun x => x.email == "nobody@example.com") = none
    ∧ dbBase.user.find? (fun x => x.email == "alice@example.com") = some userAlice
    ∧ hashEq "wrong" userAlice.password = false
    ∧ signin dbBase hashEq "s" 0 "nobody@example.com" "pw123"
        = signin dbBase hashEq "s" 0 "alice@example.com" "wrong"
    ∧ signin dbBase hashEq "s" 0 "nobody@example.com" "pw123"
        = .err 401 [invalidCredentialsError] :=
  ⟨by decide, by decide, by decide,
   (c8_signin_error_indistinguishable dbBase hashEq "s" 0 "nobody@example.com" "pw123"
      "alice@example.com" "wrong" userAlice (by decide) (by decide) (by decide)).1,
   (c8_signin_error_indistinguishable dbBase hashEq "s" 0 "nobody@example.com" "pw123"
      "alice@example.com" "wrong" userAlice (by decide) (by decide) (by decide)).2⟩

/-- C9: for every role collection (the `role` table of any state) and every
page of at least 1, the role route's fetch-all-then-slice pagination returns
exactly the community route's pagination contract: the same metadata
(`total`, `pages = ceil(total/10)`, `page`) and the same skip/take window
over the same stable order. -/
theorem c9_role_pagination_refines_community_contract (db : DB) (p : Int)
    (hp : 1 ≤ p) :
    roleList db (some p) = (paginateMeta db.role p, skipTakePage db.role p) := by
  have hne : (p == 0) = false := by
    simp only [beq_eq_false_iff_ne, ne_eq]
    omega
  have hpage : effectivePage (some p) = p := by
    simp [effectivePage, hne]
  simp only [roleList, hpage, paginateMeta]
  rw [jsSlice_page db.role p hp]

theorem c9_role_pagination_refines_community_contract_witness :
    (1 : Int) ≤ 1
    ∧ roleList dbBase (some 1) = (paginateMeta dbBase.role 1, skipTakePage dbBase.role 1) :=
  ⟨by decide, c9_role_pagination_refines_community_contract dbBase 1 (by decide)⟩

/-- C10: every 200 sign-in response carries the stored user with the
password field stripped and nothing else — the shaped data is exactly
`stripPassword` of the user found by email, and `stripPassword` is
independent of the password: two stored users agreeing on everything except
the password shape to the same response data. -/
theorem c10_signin_response_strips_password (db : DB)
    (compare : String → String → Bool) (secret : String) (now : Nat)
    (email pass : String) (data : UserData) (tok : Token)
    (h : signin db compare secret now email pass = .ok data tok) :
    (∃ u, db.user.find? (fun x => x.email == email) = some u ∧ data = stripPassword u)
    ∧ (∀ u1 u2 : User, u1.id = u2.id → u1.name = u2.name → u1.email = u2.email →
        u1.created_at = u2.created_at → stripPassword u1 = stripPassword u2) := by
  constructor
  · simp only [signin] at h
    split at h
    · exact absurd h (by simp)
    · rename_i u hu
      split at h
      · exact absurd h (by simp)
      · injection h with hd ht
        exact ⟨u, hu, hd.symm⟩
  · intro u1 u2 hid hname hemail hcreated
    simp [stripPassword, hid, hname, hemail, hcreated]

theorem c10_signin_response_strips_password_witness :
    signin dbBase hashEq "s" 0 "alice@example.com" "hash1"
      = .ok (stripPassword userAlice) (jwtSign ⟨some "u1", none⟩ "s" 0)
    ∧ ((∃ u, dbBase.user.find? (fun x => x.email == "alice@example.com") = some u
        ∧ stripPassword userAlice = stripPassword u)
      ∧ (∀ u1 u2 : User, u1.id = u2.id → u1.name = u2.name → u1.email = u2.email →
          u1.created_at = u2.created_at → stripPassword u1 = stripPassword u2)) :=
  ⟨by decide,
   c10_signin_response_strips_password dbBase hashEq "s" 0 "alice@example.com" "hash1"
     (stripPassword userAlice) (jwtSign ⟨some "u1", none⟩ "s" 0) (by decide)⟩
